import Mathlib

/-!
Verification of the gringotts-clearinghouse data clearinghouse against its
design specification.

The development shallowly embeds the repository's Python code:

* `src/app/app.py` — the Record Extractor (`process_json_file`), the
  Ingestion Ledger operations (`log_file_processing_start`,
  `update_file_processing_status`, `get_processed_files`), the Processing
  Orchestrator (`process_s3_file`), and one cycle of the Poll Loop
  (`watch_s3_bucket`).
* `src/validation/schema_enforcer.py` — the Schema Drift Guard
  (`AgentOutputRecord`, `AgentOutputSchema`, `validate_llm_output`).

External collaborators (Python's `json.loads`, `bytes.decode`,
`datetime.fromisoformat`, the object store, the relational store) are
modelled as explicit inputs: parse/decode outcomes are passed in, and
ISO-8601 timestamp parsing is an abstract boolean oracle `isoOk` applied
exactly where the code applies `datetime.fromisoformat`.

Python strings are Lean `String`s; Python string primitives used by the
code (`str.strip`, `str.replace`, `str.endswith`) are re-implemented below
on character lists so every definition evaluates by kernel reduction.
-/

namespace Clearinghouse

/-- JSON values as produced by Python's `json.loads`: `None`, `bool`,
`int`, `float`, `str`, `list`, `dict`.  Floats carry only their textual
representation, which the repository never inspects.  Objects are
association lists; Python dicts have unique keys, which hypotheses state
where it matters. -/
inductive Json where
  | null : Json
  | bool (b : Bool) : Json
  | int (n : Int) : Json
  | float (repr : String) : Json
  | str (s : String) : Json
  | arr (elems : List Json) : Json
  | obj (fields : List (String × Json)) : Json

/-- Dictionary lookup (`key in d` / `d[key]` on a Python dict). -/
def jlookup : List (String × Json) → String → Option Json
  | [], _ => none
  | (k, v) :: kvs, key => if k = key then some v else jlookup kvs key

/-- Python's `type(value).__name__` for a decoded JSON value, as used in
the extractor's `UnsupportedShape` error message. -/
def typeName : Json → String
  | .null => "NoneType"
  | .bool _ => "bool"
  | .int _ => "int"
  | .float _ => "float"
  | .str _ => "str"
  | .arr _ => "list"
  | .obj _ => "dict"

/-- Characters stripped by Python's `str.strip()` (ASCII whitespace). -/
def isPySpace (c : Char) : Bool :=
  c = ' ' || c = '\t' || c = '\n' || c = '\r' || c = '\x0b' || c = '\x0c'

/-- Python's `str.strip()`: remove leading and trailing whitespace. -/
def pyStrip (s : String) : String :=
  ⟨((s.data.dropWhile isPySpace).reverse.dropWhile isPySpace).reverse⟩

/-- Python's `s.endswith(suffix)`. -/
def pyEndsWith (s suffix : String) : Bool :=
  suffix.data.reverse.isPrefixOf s.data.reverse

/- ----------------------------------------------------------------------
Record Extractor — `process_json_file` in `src/app/app.py`.
---------------------------------------------------------------------- -/

/-- The distinct `ValueError`s surfaced by `process_json_file`, one
constructor per `raise` site.  The raises inside the `try:` block
(`whitespaceOnly`, `emptyArray`, `unsupportedShape`, `noRecords`) are
re-caught by the blanket `except Exception` and re-wrapped with an
`"Error parsing ..."` prefix; `errorMessage` below renders the exact
surfaced message of each constructor, wrapping included. -/
inductive ExtractError where
  | emptyFile : ExtractError
  | whitespaceOnly : ExtractError
  | emptyArray : ExtractError
  | noRecords : ExtractError
  | unsupportedShape (ty : String) : ExtractError
  | syntaxError (diag : String) : ExtractError
  | encodingError (diag : String) : ExtractError
deriving DecidableEq

/-- The exact `ValueError` message `process_json_file` surfaces for a key
`s3_key`, including the `"Error parsing ..."` re-wrapping applied by the
blanket `except Exception` handler to errors raised inside the `try`
block. -/
def errorMessage (s3_key : String) : ExtractError → String
  | .emptyFile => "Empty file: " ++ s3_key
  | .whitespaceOnly =>
      "Error parsing " ++ s3_key ++ ": File contains only whitespace: " ++ s3_key
  | .emptyArray =>
      "Error parsing " ++ s3_key ++ ": Empty array in " ++ s3_key
  | .noRecords =>
      "Error parsing " ++ s3_key ++ ": No records extracted from " ++ s3_key
  | .unsupportedShape ty =>
      "Error parsing " ++ s3_key ++ ": Unexpected JSON structure in " ++ s3_key
        ++ ": expected object or array, got " ++ ty
  | .syntaxError diag => "Invalid JSON syntax in " ++ s3_key ++ ": " ++ diag
  | .encodingError diag => "Invalid UTF-8 encoding in " ++ s3_key ++ ": " ++ diag

/-- The specification's error taxonomy for the Record Extractor (§4.2,
§7): both the empty-bytes and whitespace-only raises report an empty
payload, and both the empty-array raise and the final zero-records check
report an empty extraction. -/
inductive SpecErrorKind where
  | EmptyPayload | EncodingError | SyntaxErr | UnsupportedShape | NoRecords
deriving DecidableEq

/-- Classification of each surfaced extractor error under the
specification's taxonomy. -/
def specKind : ExtractError → SpecErrorKind
  | .emptyFile => .EmptyPayload
  | .whitespaceOnly => .EmptyPayload
  | .emptyArray => .NoRecords
  | .noRecords => .NoRecords
  | .unsupportedShape _ => .UnsupportedShape
  | .syntaxError _ => .SyntaxErr
  | .encodingError _ => .EncodingError

/-- Outcome of `content.decode('utf-8')` (external collaborator): either a
`UnicodeDecodeError` with its diagnostic, or the decoded text. -/
inductive DecodeResult where
  | err (diag : String) : DecodeResult
  | ok (text : String) : DecodeResult

/-- Outcome of `json.loads` (external collaborator) on a given text:
either a `JSONDecodeError` with its diagnostic, or the decoded value. -/
inductive ParseResult where
  | err (diag : String) : ParseResult
  | ok (j : Json) : ParseResult

/-- The record list chosen by the `dict` branch of `process_json_file`:
`records` if it holds a list, else `data` if it holds a list, else the
whole mapping wrapped as a single record. -/
def objRecords (kvs : List (String × Json)) : List Json :=
  match jlookup kvs "records" with
  | some (.arr rs) => rs
  | _ =>
    match jlookup kvs "data" with
    | some (.arr ds) => ds
    | _ => [.obj kvs]

/-- Shape dispatch of `process_json_file` on the parsed JSON value,
including the trailing `if not records` check (which fires when a
`records`/`data` key selects an empty list). -/
def extractFromJson : Json → Except ExtractError (List Json)
  | .arr xs =>
      if xs.length = 0 then .error .emptyArray
      else if xs.isEmpty then .error .noRecords else .ok xs
  | .obj kvs =>
      let records := objRecords kvs
      if records.isEmpty then .error .noRecords else .ok records
  | other => .error (.unsupportedShape (typeName other))

/-- `process_json_file(s3_key, content)` with the two external stages made
explicit: `contentEmpty` is `len(content) == 0`, `decoded` is the outcome
of `content.decode('utf-8')`, and `parse` is `json.loads` applied to the
stripped text. -/
def process_json_file (contentEmpty : Bool) (decoded : DecodeResult)
    (parse : String → ParseResult) : Except ExtractError (List Json) :=
  if contentEmpty then .error .emptyFile
  else
    match decoded with
    | .err d => .error (.encodingError d)
    | .ok text =>
      let stripped := pyStrip text
      if stripped = "" then .error .whitespaceOnly
      else
        match parse stripped with
        | .err d => .error (.syntaxError d)
        | .ok j => extractFromJson j

/- ----------------------------------------------------------------------
Schema Drift Guard — `src/validation/schema_enforcer.py`.
---------------------------------------------------------------------- -/

/-- The Python exceptions that can cross `validate_llm_output`'s internal
boundaries: `SchemaDriftError` (the only kind it surfaces), pydantic's
`ValidationError`, and any other exception (e.g. the `TypeError` from
`AgentOutputSchema(**non_dict)`), which the blanket handler also wraps. -/
inductive PyException where
  | schemaDrift (msg : String) : PyException
  | validationError (msg : String) : PyException
  | typeError (msg : String) : PyException
deriving DecidableEq

/-- Validated record — the fields of the pydantic model
`AgentOutputRecord`.  `type` holds the stripped value returned by
`validate_type`; `metadata` is `none` when the field was absent or
`null`. -/
structure AgentOutputRecord where
  id : String
  timestamp : String
  type : String
  data : List (String × Json)
  metadata : Option (List (String × Json))

/-- Validated envelope — the fields of the pydantic model
`AgentOutputSchema`.  `version` holds the stripped value returned by
`validate_version`. -/
structure AgentOutputSchema where
  version : String
  records : List AgentOutputRecord
  source : Option String

/-- Field names admitted by `AgentOutputRecord` (`extra = 'forbid'`). -/
def allowedRecordKey (k : String) : Bool :=
  k = "id" || k = "timestamp" || k = "type" || k = "data" || k = "metadata"

/-- Field names admitted by `AgentOutputSchema` (`extra = 'forbid'`). -/
def allowedSchemaKey (k : String) : Bool :=
  k = "version" || k = "records" || k = "source"

/-- Python's `v.replace('Z', '+00:00')` as performed by
`validate_timestamp` before calling `datetime.fromisoformat`. -/
def replaceZ (ts : String) : String :=
  ⟨ts.data.foldr (fun c acc => if c = 'Z' then "+00:00".data ++ acc else c :: acc) []⟩

/-- Pydantic validation of one element of `records` against
`AgentOutputRecord`: the element must be a mapping with no field outside
the declared five; `id` and `timestamp` must be strings; the timestamp
must satisfy `datetime.fromisoformat` (oracle `isoOk`) after `Z`
replacement; `type` must be a string that is non-empty after stripping
(and is stored stripped); `data` must be a mapping; `metadata`, when
present and not `null`, must be a mapping. -/
def validateRecord (isoOk : String → Bool) : Json → Except PyException AgentOutputRecord
  | .obj kvs =>
    if kvs.all (fun kv => allowedRecordKey kv.1) then
      match jlookup kvs "id" with
      | some (.str i) =>
        match jlookup kvs "timestamp" with
        | some (.str ts) =>
          if isoOk (replaceZ ts) then
            match jlookup kvs "type" with
            | some (.str ty) =>
              if pyStrip ty = "" then
                .error (.validationError "Type cannot be empty")
              else
                match jlookup kvs "data" with
                | some (.obj d) =>
                  match jlookup kvs "metadata" with
                  | none => .ok ⟨i, ts, pyStrip ty, d, none⟩
                  | some .null => .ok ⟨i, ts, pyStrip ty, d, none⟩
                  | some (.obj m) => .ok ⟨i, ts, pyStrip ty, d, some m⟩
                  | some _ => .error (.validationError "metadata is not a valid dict")
                | _ => .error (.validationError "data is not a valid dict")
            | _ => .error (.validationError "type is not a valid string")
          else .error (.validationError ("Invalid ISO 8601 timestamp: " ++ ts))
        | _ => .error (.validationError "timestamp is not a valid string")
      | _ => .error (.validationError "id is not a valid string")
    else .error (.validationError "extra fields not permitted on record")
  | _ => .error (.validationError "record is not a valid dict")

/-- Pydantic validation of the `records` list, element by element in
sequence order, surfacing the first offending element's error. -/
def validateRecords (isoOk : String → Bool) : List Json → Except PyException (List AgentOutputRecord)
  | [] => .ok []
  | r :: rs =>
    match validateRecord isoOk r with
    | .error e => .error e
    | .ok v =>
      match validateRecords isoOk rs with
      | .error e => .error e
      | .ok vs => .ok (v :: vs)

/-- `AgentOutputSchema(**parsed_data)`: the top level must be a mapping
(otherwise the `**` splat raises `TypeError`) with no field outside
`version`/`records`/`source`; `version` must be a string non-empty after
stripping (stored stripped); `records` must be a list with at least one
element (`min_length = 1`), each validated by `validateRecord`; `source`,
when present and not `null`, must be a string. -/
def validateAgentOutputSchema (isoOk : String → Bool) (j : Json) :
    Except PyException AgentOutputSchema :=
  match j with
  | .obj kvs =>
    if kvs.all (fun kv => allowedSchemaKey kv.1) then
      match jlookup kvs "version" with
      | some (.str v) =>
        if pyStrip v = "" then .error (.validationError "Version cannot be empty")
        else
          match jlookup kvs "records" with
          | some (.arr rs) =>
            if rs.isEmpty then
              .error (.validationError "records should have at least 1 item")
            else
              match validateRecords isoOk rs with
              | .error e => .error e
              | .ok vs =>
                match jlookup kvs "source" with
                | none => .ok ⟨pyStrip v, vs, none⟩
                | some .null => .ok ⟨pyStrip v, vs, none⟩
                | some (.str s) => .ok ⟨pyStrip v, vs, some s⟩
                | some _ => .error (.validationError "source is not a valid string")
          | some _ => .error (.validationError "records is not a valid list")
          | none => .error (.validationError "records field required")
      | some _ => .error (.validationError "version is not a valid string")
      | none => .error (.validationError "version field required")
    else .error (.validationError "extra fields not permitted on schema")
  | _ => .error (.typeError "argument after ** must be a mapping")

/-- `validate_llm_output(raw_string)` with the external `json.loads`
outcome passed in: a `JSONDecodeError` is wrapped into `SchemaDriftError`;
a pydantic `ValidationError` is wrapped into `SchemaDriftError`; any other
exception from validation is wrapped into `SchemaDriftError` by the
blanket handler. -/
def validate_llm_output (isoOk : String → Bool) (parsed : ParseResult) :
    Except PyException AgentOutputSchema :=
  match parsed with
  | .err d => .error (.schemaDrift ("Invalid JSON syntax in LLM output: " ++ d))
  | .ok j =>
    match validateAgentOutputSchema isoOk j with
    | .ok v => .ok v
    | .error (.validationError m) =>
        .error (.schemaDrift ("Schema validation failed: " ++ m))
    | .error (.typeError m) =>
        .error (.schemaDrift ("Unexpected validation error: " ++ m))
    | .error (.schemaDrift m) => .error (.schemaDrift m)

/-- Spec-side acceptance predicate for one record, written from the
specification's words (§3 Agent Output Record, §4.3 record schema as
enforced by the code: `id` a string, timestamp ISO-8601 parseable after
`Z` replacement, `type` non-empty after trimming, `data` a mapping,
`metadata` absent, `null`, or a mapping, no extra fields). -/
def recordAccepts (isoOk : String → Bool) (j : Json) : Bool :=
  match j with
  | .obj kvs =>
    kvs.all (fun kv => allowedRecordKey kv.1) &&
    (match jlookup kvs "id" with
     | some (.str _) => true
     | _ => false) &&
    (match jlookup kvs "timestamp" with
     | some (.str ts) => isoOk (replaceZ ts)
     | _ => false) &&
    (match jlookup kvs "type" with
     | some (.str ty) => !(pyStrip ty = "")
     | _ => false) &&
    (match jlookup kvs "data" with
     | some (.obj _) => true
     | _ => false) &&
    (match jlookup kvs "metadata" with
     | none => true
     | some .null => true
     | some (.obj _) => true
     | some _ => false)
  | _ => false

/-- Spec-side acceptance predicate for the whole envelope, written from
the specification's words (§3 Agent Output Envelope, §4.3): exactly the
fields `version` (non-empty string after trimming), `records` (non-empty
sequence of acceptable records) and optionally `source` (a string or
`null`). -/
def envelopeAccepts (isoOk : String → Bool) (j : Json) : Bool :=
  match j with
  | .obj kvs =>
    kvs.all (fun kv => allowedSchemaKey kv.1) &&
    (match jlookup kvs "version" with
     | some (.str v) => !(pyStrip v = "")
     | _ => false) &&
    (match jlookup kvs "records" with
     | some (.arr rs) => !rs.isEmpty && rs.all (recordAccepts isoOk)
     | _ => false) &&
    (match jlookup kvs "source" with
     | none => true
     | some .null => true
     | some (.str _) => true
     | _ => false)
  | _ => false

/- ----------------------------------------------------------------------
Ingestion Ledger — the `file_processing_log` table and its operations in
`src/app/app.py`.  Timestamps (`CURRENT_TIMESTAMP`) are modelled as a
`now : Nat` supplied per operation.
---------------------------------------------------------------------- -/

/-- One row of `file_processing_log`.  `metadata` holds the
`json.dumps(metadata)` text (`none` models SQL `NULL`). -/
structure LedgerEntry where
  id : Nat
  file_name : String
  file_path : String
  s3_bucket : String
  s3_key : String
  file_size : Nat
  file_hash : String
  status : String
  metadata : Option String
  error_message : Option String
  processed_at : Option Nat
  created_at : Nat
  updated_at : Nat
deriving DecidableEq

/-- Whether a row belongs to the given `(s3_bucket, s3_key)` unique key. -/
def entryMatches (bucket key : String) (e : LedgerEntry) : Bool :=
  e.s3_bucket = bucket && e.s3_key = key

/-- The `file_processing_log` table plus the sequence behind its serial
primary key. -/
structure LedgerState where
  entries : List LedgerEntry
  nextId : Nat
deriving DecidableEq

/-- The `DO UPDATE SET` clause of `log_file_processing_start`'s insert:
overwrite exactly `status` (to `'processing'`), `file_size`, `file_hash`,
`metadata` and `updated_at`; every other column of the conflicting row is
untouched. -/
def startUpdate (file_size : Nat) (file_hash : String) (metadata : Option String)
    (now : Nat) (e : LedgerEntry) : LedgerEntry :=
  { e with status := "processing", file_size := file_size,
           file_hash := file_hash, metadata := metadata, updated_at := now }

/-- The row inserted by `log_file_processing_start` when no row conflicts:
status `'processing'`, `file_path = s3_key` (the code passes `s3_key` for
both), no error message, no completion timestamp. -/
def freshEntry (bucket s3_key file_name : String) (file_size : Nat)
    (file_hash : String) (metadata : Option String) (idv now : Nat) : LedgerEntry :=
  { id := idv, file_name := file_name, file_path := s3_key,
    s3_bucket := bucket, s3_key := s3_key, file_size := file_size,
    file_hash := file_hash, status := "processing",
    metadata := metadata, error_message := none,
    processed_at := none, created_at := now, updated_at := now }

/-- The `ON CONFLICT (s3_bucket, s3_key) DO UPDATE` arm of
`log_file_processing_start`'s insert: find the conflicting row and apply
`startUpdate` to it, returning its `id`; report `none` when no row
conflicts. -/
def upsertStart (bucket key : String) (file_size : Nat) (file_hash : String)
    (metadata : Option String) (now : Nat) :
    List LedgerEntry → Option Nat × List LedgerEntry
  | [] => (none, [])
  | e :: es =>
    if entryMatches bucket key e then
      (some e.id, startUpdate file_size file_hash metadata now e :: es)
    else
      let r := upsertStart bucket key file_size file_hash metadata now es
      (r.1, e :: r.2)

/-- `log_file_processing_start(conn, s3_key, file_name, file_size,
file_hash, metadata)`: upsert keyed on `(s3_bucket, s3_key)`; on conflict
update the existing row (keeping its identity), otherwise insert a fresh
row in status `'processing'` with `file_path = s3_key`; return the row id
either way. -/
def log_file_processing_start (st : LedgerState) (bucket s3_key file_name : String)
    (file_size : Nat) (file_hash : String) (metadata : Option String) (now : Nat) :
    Nat × LedgerState :=
  match upsertStart bucket s3_key file_size file_hash metadata now st.entries with
  | (some i, es) => (i, { st with entries := es })
  | (none, _) =>
      (st.nextId,
       { entries := st.entries ++
           [freshEntry bucket s3_key file_name file_size file_hash metadata st.nextId now],
         nextId := st.nextId + 1 })

/-- `update_file_processing_status(conn, file_log_id, status,
error_message)`: `SET status = %s, processed_at = CASE WHEN %s =
'COMPLETED' THEN CURRENT_TIMESTAMP ELSE processed_at END, error_message =
%s WHERE id = %s`. -/
def update_file_processing_status (st : LedgerState) (file_log_id : Nat)
    (status : String) (error_message : Option String) (now : Nat) : LedgerState :=
  { st with
    entries := st.entries.map fun e =>
      if e.id = file_log_id then
        { e with status := status,
                 processed_at := if status = "COMPLETED" then some now else e.processed_at,
                 error_message := error_message }
      else e }

/-- `get_processed_files(conn)`: the `s3_key`s of rows whose status is
`'COMPLETED'` or `'processing'` (the code returns them as a set; the list
of keys is kept here and membership is what the theorems speak about). -/
def get_processed_files (entries : List LedgerEntry) : List String :=
  (entries.filter fun e => e.status = "COMPLETED" || e.status = "processing").map
    fun e => e.s3_key

/- ----------------------------------------------------------------------
Processing Orchestrator — `process_s3_file` in `src/app/app.py`.
---------------------------------------------------------------------- -/

/-- The data `process_s3_file` derives from a successful S3 download:
emptiness of the body, its decode outcome, `len(content)`,
`calculate_file_hash(content)`, `os.path.basename(s3_key)` and the
`json.dumps`-serialised object metadata. -/
structure S3DownloadedObject where
  contentEmpty : Bool
  decoded : DecodeResult
  file_size : Nat
  file_hash : String
  file_name : String
  metadata : Option String

/-- Outcomes of the external collaborators `process_s3_file` touches, in
program order: the S3 `get_object` call, `get_db_connection`, `json.loads`
(via `process_json_file`), and possible raises from the three database
operations (`log_file_processing_start`, `upsert_processed_data`, and the
`COMPLETED` status update); `failCloseFails` says whether the best-effort
`FAILED` status update in the `except` handler itself raises.  A raising
database operation leaves the ledger unchanged (each operation is a single
committed statement). -/
structure OrchestratorEnv where
  download : Except String S3DownloadedObject
  connect : Except String Unit
  parse : String → ParseResult
  openFailure : Option String
  persistFailure : Option String
  completeFailure : Option String
  failCloseFails : Bool

/-- The `except` handler's best-effort close: `update_file_processing_status
(conn, file_log_id, 'FAILED', str(e))`, whose own failure is swallowed
(logged only). -/
def attemptFailClose (env : OrchestratorEnv) (st : LedgerState) (logId : Nat)
    (msg : String) (now : Nat) : LedgerState :=
  if env.failCloseFails then st
  else update_file_processing_status st logId "FAILED" (some msg) now

/-- `process_s3_file(s3_key)`: download, hash, ledger-open, extract,
persist, ledger-close; every raise is caught by the function's own
`except` block, which closes the ledger entry to `FAILED` (best-effort)
only when `conn` and `file_log_id` were already established, and the
function returns `False`; the happy path closes to `COMPLETED` and returns
`True`. -/
def process_s3_file (env : OrchestratorEnv) (bucket s3_key : String)
    (st : LedgerState) (now : Nat) : Bool × LedgerState :=
  match env.download with
  | .error _ => (false, st)
  | .ok file =>
    match env.connect with
    | .error _ => (false, st)
    | .ok _ =>
      match env.openFailure with
      | some _ => (false, st)
      | none =>
        let r := log_file_processing_start st bucket s3_key file.file_name
          file.file_size file.file_hash file.metadata now
        match process_json_file file.contentEmpty file.decoded env.parse with
        | .error e => (false, attemptFailClose env r.2 r.1 (errorMessage s3_key e) now)
        | .ok _ =>
          match env.persistFailure with
          | some m => (false, attemptFailClose env r.2 r.1 m now)
          | none =>
            match env.completeFailure with
            | some m => (false, attemptFailClose env r.2 r.1 m now)
            | none => (true, update_file_processing_status r.2 r.1 "COMPLETED" none now)

/- ----------------------------------------------------------------------
Poll Loop — one iteration of `watch_s3_bucket`'s `while True` body in
`src/app/app.py`.
---------------------------------------------------------------------- -/

/-- The candidate filter of one poll cycle: keys of listed objects ending
in `'.json'` and not in the in-memory `processed_files` set. -/
def newJsonFiles (listing known : List String) : List String :=
  listing.filter fun k => pyEndsWith k ".json" && !known.contains k

/-- The sequential `for s3_key in new_files` loop: invoke the Orchestrator
(abstracted to a success predicate `process`) on each candidate in order,
adding the key to `processed_files` exactly when it reports success. -/
def runNewFiles (process : String → Bool) : List String → List String → List String
  | [], known => known
  | k :: ks, known =>
      runNewFiles process ks (if process k then known ++ [k] else known)

/-- One cycle of `watch_s3_bucket`: the candidate list it processes and
the `processed_files` set it leaves behind. -/
def watchCycle (process : String → Bool) (listing known : List String) :
    List String × List String :=
  (newJsonFiles listing known, runNewFiles process (newJsonFiles listing known) known)

/- ----------------------------------------------------------------------
Shape discriminators and concrete demonstration values used by the
theorems below.
---------------------------------------------------------------------- -/

/-- Whether an optional JSON value is present and a list
(`isinstance(d[key], list)` guarded by `key in d`). -/
def isArrValue : Option Json → Bool
  | some (.arr _) => true
  | _ => false

/-- Whether a JSON value is a bare scalar (`str`, `int`, `float`, `bool`
or `None`) — the shapes `process_json_file` rejects as unexpected. -/
def isScalar : Json → Bool
  | .null => true
  | .bool _ => true
  | .int _ => true
  | .float _ => true
  | .str _ => true
  | .arr _ => false
  | .obj _ => false

/-- Whether a JSON value is `null`. -/
def isNullJson : Json → Bool
  | .null => true
  | _ => false

/-- Whether a JSON value is a mapping. -/
def isObjJson : Json → Bool
  | .obj _ => true
  | _ => false

/-- Number of ledger rows for a `(bucket, key)` pair. -/
def matchCount (bucket key : String) (es : List LedgerEntry) : Nat :=
  (es.filter (entryMatches bucket key)).length

/-- A concrete stand-in for `datetime.fromisoformat` used by witnesses: it
accepts exactly the numeric-offset form that `replaceZ` produces from the
demonstration timestamp below. -/
def isoDemo : String → Bool :=
  fun s => s = "2024-01-01T00:00:00+00:00"

/-- Demonstration timestamp in the `Z`-suffixed UTC form. -/
def demoTs : String := "2024-01-01T00:00:00Z"

/-- A record that conforms to the drift-guard schema except that its `id`
is the empty string. -/
def demoRecordEmptyId : Json :=
  .obj [("id", .str ""), ("timestamp", .str demoTs), ("type", .str "t"),
        ("data", .obj [])]

/-- A record that conforms to the drift-guard schema and carries
`"metadata": null`. -/
def demoRecordNullMeta : Json :=
  .obj [("id", .str "r1"), ("timestamp", .str demoTs), ("type", .str "t"),
        ("data", .obj []), ("metadata", .null)]

/-- A fully conforming record. -/
def demoRecordGood : Json :=
  .obj [("id", .str "r1"), ("timestamp", .str demoTs), ("type", .str "t"),
        ("data", .obj [("k", .int 1)]), ("metadata", .obj [])]

/-- The envelope holding `demoRecordEmptyId` and `demoRecordNullMeta`. -/
def demoEnvelopeCex : Json :=
  .obj [("version", .str "1.0"),
        ("records", .arr [demoRecordEmptyId, demoRecordNullMeta])]

/-- A fully conforming envelope. -/
def demoEnvelopeGood : Json :=
  .obj [("version", .str "1.0"), ("records", .arr [demoRecordGood]),
        ("source", .str "agent-7")]

/-- A ledger row in status `FAILED` used to demonstrate the upsert
claims. -/
def demoFailedEntry : LedgerEntry :=
  { id := 7, file_name := "a.json", file_path := "in/a.json",
    s3_bucket := "b", s3_key := "in/a.json", file_size := 10,
    file_hash := "h0", status := "FAILED", metadata := none,
    error_message := some "boom", processed_at := none,
    created_at := 1, updated_at := 2 }

/- ----------------------------------------------------------------------
General helper lemmas.
---------------------------------------------------------------------- -/

theorem except_isOk_ok {ε α : Type} (v : α) : (Except.ok v : Except ε α).isOk = true := rfl

theorem except_isOk_error {ε α : Type} (e : ε) : (Except.error e : Except ε α).isOk = false := rfl

theorem all_eq_false_of_mem {α : Type} {l : List α} {p : α → Bool} {x : α}
    (hx : x ∈ l) (hp : p x = false) : l.all p = false := by
  cases hall : l.all p
  · rfl
  · rw [List.all_eq_true] at hall
    have := hall x hx
    rw [hp] at this
    cases this

theorem any_false_filter_nil {α : Type} {l : List α} {p : α → Bool}
    (h : l.any p = false) : l.filter p = [] := by
  induction l with
  | nil => rfl
  | cons x xs ih =>
    rw [List.any_cons] at h
    rcases Bool.or_eq_false_iff.mp h with ⟨hx, hxs⟩
    simp [List.filter_cons, hx, ih hxs]

theorem filter_nil_any_false {α : Type} {l : List α} {p : α → Bool}
    (h : l.filter p = []) : l.any p = false := by
  cases hany : l.any p
  · rfl
  · rw [List.any_eq_true] at hany
    rcases hany with ⟨x, hx, hpx⟩
    simp at h
    have := h x hx
    rw [hpx] at this
    cases this

/- ----------------------------------------------------------------------
Characterization of the Drift Guard: its validators succeed exactly on
the spec-side acceptance predicates.
---------------------------------------------------------------------- -/

theorem validateRecord_isOk (isoOk : String → Bool) (j : Json) :
    (validateRecord isoOk j).isOk = recordAccepts isoOk j := by
  cases j
  case obj kvs =>
    simp only [validateRecord, recordAccepts]
    cases hall : kvs.all fun kv => allowedRecordKey kv.1
    · simp [hall, except_isOk_error]
    · simp only [hall, if_true, Bool.true_and]
      rcases hid : jlookup kvs "id" with _ | v
      · simp [hid, except_isOk_error]
      · cases v
        all_goals try (simp [hid, except_isOk_error]; done)
        rename_i i
        rcases hts : jlookup kvs "timestamp" with _ | w
        · simp [hid, hts, except_isOk_error]
        · cases w
          all_goals try (simp [hid, hts, except_isOk_error]; done)
          rename_i ts
          cases hiso : isoOk (replaceZ ts)
          · simp [hid, hts, hiso, except_isOk_error]
          · simp only [hts, hiso, if_true, Bool.true_and]
            rcases hty : jlookup kvs "type" with _ | u
            · simp [hid, hts, hiso, hty, except_isOk_error]
            · cases u
              all_goals try (simp [hid, hts, hiso, hty, except_isOk_error]; done)
              rename_i ty
              by_cases hstrip : pyStrip ty = ""
              · simp [hid, hts, hiso, hty, hstrip, except_isOk_error]
              · simp only [hty, if_neg hstrip]
                rcases hd : jlookup kvs "data" with _ | d
                · simp [hid, hts, hiso, hty, hstrip, hd, except_isOk_error]
                · cases d
                  all_goals try (simp [hid, hts, hiso, hty, hstrip, hd, except_isOk_error]; done)
                  rename_i dkvs
                  rcases hm : jlookup kvs "metadata" with _ | m
                  · simp [hid, hts, hiso, hty, hstrip, hd, hm, except_isOk_ok]
                  · cases m <;>
                      simp [hid, hts, hiso, hty, hstrip, hd, hm,
                        except_isOk_ok, except_isOk_error]
  all_goals rfl

theorem validateRecords_isOk (isoOk : String → Bool) (rs : List Json) :
    (validateRecords isoOk rs).isOk = rs.all (recordAccepts isoOk) := by
  induction rs with
  | nil => rfl
  | cons r rs ih =>
    simp only [validateRecords, List.all_cons]
    have hacc := validateRecord_isOk isoOk r
    cases hr : validateRecord isoOk r
    · rw [hr] at hacc
      simp [← hacc, except_isOk_error]
    · rw [hr] at hacc
      cases hvr : validateRecords isoOk rs
      · rw [hvr] at ih
        simp [← hacc, ← ih, except_isOk_error, except_isOk_ok]
      · rw [hvr] at ih
        simp [← hacc, ← ih, except_isOk_ok]

theorem validateAgentOutputSchema_isOk (isoOk : String → Bool) (j : Json) :
    (validateAgentOutputSchema isoOk j).isOk = envelopeAccepts isoOk j := by
  cases j
  case obj kvs =>
    simp only [validateAgentOutputSchema, envelopeAccepts]
    cases hall : kvs.all fun kv => allowedSchemaKey kv.1
    · simp [hall, except_isOk_error]
    · simp only [hall, if_true, Bool.true_and]
      rcases hv : jlookup kvs "version" with _ | v
      · simp [hv, except_isOk_error]
      · cases v
        all_goals try (simp [hv, except_isOk_error]; done)
        rename_i ver
        by_cases hstrip : pyStrip ver = ""
        · simp [hv, hstrip, except_isOk_error]
        · simp only [hv, if_neg hstrip]
          rcases hr : jlookup kvs "records" with _ | r
          · simp [hr, hstrip, except_isOk_error]
          · cases r
            all_goals try (simp [hv, hr, hstrip, except_isOk_error]; done)
            rename_i rs
            cases hemp : rs.isEmpty
            · simp only [hr, hemp]
              have hvr := validateRecords_isOk isoOk rs
              cases hrec : validateRecords isoOk rs
              · rw [hrec] at hvr
                simp [hv, hr, hstrip, ← hvr, except_isOk_error]
              · rw [hrec] at hvr
                rcases hs : jlookup kvs "source" with _ | s
                · simp [hv, hr, hs, hstrip, ← hvr, except_isOk_ok]
                · cases s <;>
                    simp [hv, hr, hs, hstrip, ← hvr,
                      except_isOk_ok, except_isOk_error]
            · simp [hv, hr, hemp, hstrip, except_isOk_error]
  all_goals rfl

/-- An input the acceptance predicate refuses makes the validator return
an error value. -/
theorem validate_error_of_not_accepts (isoOk : String → Bool) (j : Json)
    (h : envelopeAccepts isoOk j = false) :
    ∃ e, validateAgentOutputSchema isoOk j = .error e := by
  have hc := validateAgentOutputSchema_isOk isoOk j
  rw [h] at hc
  cases hres : validateAgentOutputSchema isoOk j
  · exact ⟨_, rfl⟩
  · rw [hres] at hc
    simp [except_isOk_ok] at hc

/- ----------------------------------------------------------------------
Claim theorems: Schema Drift Guard.
---------------------------------------------------------------------- -/

/-- Claim C1 — for every input, validation of an agent output
(`validate_llm_output`) either returns a validated envelope or fails with
`SchemaDriftError`, and that is the only validation failure kind surfaced
to callers: every error the function returns is a `schemaDrift`; a JSON
syntax error from `json.loads` is wrapped into that same kind; and a
syntactically valid JSON document missing `version` fails with the drift
error kind, never a generic parse error. -/
theorem validate_llm_output_only_drift (isoOk : String → Bool) (parsed : ParseResult) :
    (∀ ex, validate_llm_output isoOk parsed = .error ex →
        ∃ m, ex = PyException.schemaDrift m)
    ∧ (∀ d, parsed = .err d →
        ∃ m, validate_llm_output isoOk parsed = .error (.schemaDrift m))
    ∧ (∀ kvs, parsed = .ok (.obj kvs) → jlookup kvs "version" = none →
        ∃ m, validate_llm_output isoOk parsed = .error (.schemaDrift m)) := by
  refine ⟨?_, ?_, ?_⟩
  · intro ex hex
    cases parsed with
    | err d =>
      simp only [validate_llm_output, Except.error.injEq] at hex
      exact ⟨_, hex.symm⟩
    | ok j =>
      simp only [validate_llm_output] at hex
      cases hv : validateAgentOutputSchema isoOk j with
      | ok v => rw [hv] at hex; cases hex
      | error e =>
        rw [hv] at hex
        cases e <;> simp only [Except.error.injEq] at hex <;> exact ⟨_, hex.symm⟩
  · intro d hd
    subst hd
    exact ⟨_, rfl⟩
  · intro kvs hp hv
    subst hp
    obtain ⟨e, he⟩ := validate_error_of_not_accepts isoOk (.obj kvs)
      (by simp [envelopeAccepts, hv])
    simp only [validate_llm_output]
    rw [he]
    cases e <;> exact ⟨_, rfl⟩

/-- Claim C3 — the Drift Guard accepts exactly the envelopes described by
`envelopeAccepts` (top-level fields exactly `version` — non-empty after
trimming — `records` — a non-empty sequence of records each having exactly
`id`, `timestamp`, `type`, `data` and optionally `metadata`, with the
timestamp accepted by `fromisoformat` after the `Z` replacement — and
optionally `source`), and it rejects with the drift error any payload
with an unrecognized field in the envelope or in any record, a missing
required field at either level, an empty `records` sequence, or a
timestamp the ISO-8601 parser refuses (such as `"not-a-date"`). -/
theorem drift_guard_schema (isoOk : String → Bool) :
    (∀ j, (validateAgentOutputSchema isoOk j).isOk = envelopeAccepts isoOk j)
    ∧ (∀ kvs kv, kv ∈ kvs → allowedSchemaKey kv.1 = false →
        ∃ e, validateAgentOutputSchema isoOk (.obj kvs) = .error e)
    ∧ (∀ kvs rs rkvs kv, jlookup kvs "records" = some (.arr rs) →
        Json.obj rkvs ∈ rs → kv ∈ rkvs → allowedRecordKey kv.1 = false →
        ∃ e, validateAgentOutputSchema isoOk (.obj kvs) = .error e)
    ∧ (∀ kvs, jlookup kvs "version" = none →
        ∃ e, validateAgentOutputSchema isoOk (.obj kvs) = .error e)
    ∧ (∀ kvs, jlookup kvs "records" = none →
        ∃ e, validateAgentOutputSchema isoOk (.obj kvs) = .error e)
    ∧ (∀ kvs rs rkvs, jlookup kvs "records" = some (.arr rs) → Json.obj rkvs ∈ rs →
        (jlookup rkvs "id" = none ∨ jlookup rkvs "timestamp" = none ∨
         jlookup rkvs "type" = none ∨ jlookup rkvs "data" = none) →
        ∃ e, validateAgentOutputSchema isoOk (.obj kvs) = .error e)
    ∧ (∀ kvs, jlookup kvs "records" = some (.arr []) →
        ∃ e, validateAgentOutputSchema isoOk (.obj kvs) = .error e)
    ∧ (∀ kvs rs rkvs ts, jlookup kvs "records" = some (.arr rs) → Json.obj rkvs ∈ rs →
        jlookup rkvs "timestamp" = some (.str ts) → isoOk (replaceZ ts) = false →
        ∃ e, validateAgentOutputSchema isoOk (.obj kvs) = .error e) := by
  refine ⟨validateAgentOutputSchema_isOk isoOk, ?_, ?_, ?_, ?_, ?_, ?_, ?_⟩
  · intro kvs kv hkv hbad
    have hall : (kvs.all fun kv => allowedSchemaKey kv.1) = false :=
      all_eq_false_of_mem (p := fun kv => allowedSchemaKey kv.1) hkv hbad
    exact validate_error_of_not_accepts isoOk _ (by simp [envelopeAccepts, hall])
  · intro kvs rs rkvs kv hrec hr hkv hbad
    have hrall : (rkvs.all fun kv => allowedRecordKey kv.1) = false :=
      all_eq_false_of_mem (p := fun kv => allowedRecordKey kv.1) hkv hbad
    have hra : recordAccepts isoOk (.obj rkvs) = false := by
      simp [recordAccepts, hrall]
    have hsall : rs.all (recordAccepts isoOk) = false :=
      all_eq_false_of_mem (p := recordAccepts isoOk) hr hra
    exact validate_error_of_not_accepts isoOk _
      (by simp [envelopeAccepts, hrec, hsall])
  · intro kvs hv
    exact validate_error_of_not_accepts isoOk _ (by simp [envelopeAccepts, hv])
  · intro kvs hrec
    exact validate_error_of_not_accepts isoOk _ (by simp [envelopeAccepts, hrec])
  · intro kvs rs rkvs hrec hr hmiss
    have hra : recordAccepts isoOk (.obj rkvs) = false := by
      rcases hmiss with h | h | h | h <;> simp [recordAccepts, h]
    have hsall : rs.all (recordAccepts isoOk) = false :=
      all_eq_false_of_mem (p := recordAccepts isoOk) hr hra
    exact validate_error_of_not_accepts isoOk _
      (by simp [envelopeAccepts, hrec, hsall])
  · intro kvs hrec
    exact validate_error_of_not_accepts isoOk _ (by simp [envelopeAccepts, hrec])
  · intro kvs rs rkvs ts hrec hr hts hiso
    have hra : recordAccepts isoOk (.obj rkvs) = false := by
      simp [recordAccepts, hts, hiso]
    have hsall : rs.all (recordAccepts isoOk) = false :=
      all_eq_false_of_mem (p := recordAccepts isoOk) hr hra
    exact validate_error_of_not_accepts isoOk _
      (by simp [envelopeAccepts, hrec, hsall])



theorem validate_llm_output_only_drift_witness :
    (∃ m, validate_llm_output isoDemo (.err "Expecting value: line 1 column 1 (char 0)")
        = .error (.schemaDrift m))
    ∧ (∃ m, validate_llm_output isoDemo (.ok (.obj [("records", .arr [demoRecordGood])]))
        = .error (.schemaDrift m)) :=
  ⟨(validate_llm_output_only_drift isoDemo _).2.1 _ rfl,
   (validate_llm_output_only_drift isoDemo _).2.2 _ rfl rfl⟩

theorem drift_guard_schema_witness :
    ((validateAgentOutputSchema isoDemo demoEnvelopeGood).isOk = true)
    ∧ (∃ e, validateAgentOutputSchema isoDemo
        (.obj [("version", .str "1.0"), ("extra", .int 1)]) = .error e)
    ∧ (∃ e, validateAgentOutputSchema isoDemo
        (.obj [("records", .arr [.obj [("surprise", .int 1)]])]) = .error e)
    ∧ (∃ e, validateAgentOutputSchema isoDemo (.obj [("records", .arr [demoRecordGood])]) = .error e)
    ∧ (∃ e, validateAgentOutputSchema isoDemo (.obj [("version", .str "1.0")]) = .error e)
    ∧ (∃ e, validateAgentOutputSchema isoDemo
        (.obj [("version", .str "1.0"), ("records", .arr [.obj [("timestamp", .str demoTs)]])]) = .error e)
    ∧ (∃ e, validateAgentOutputSchema isoDemo
        (.obj [("version", .str "1.0"), ("records", .arr [])]) = .error e)
    ∧ (∃ e, validateAgentOutputSchema isoDemo
        (.obj [("version", .str "1.0"),
               ("records", .arr [.obj [("id", .str "r1"), ("timestamp", .str "not-a-date"),
                  ("type", .str "t"), ("data", .obj [])]])]) = .error e) := by
  refine ⟨((drift_guard_schema isoDemo).1 demoEnvelopeGood).trans (by decide),
    (drift_guard_schema isoDemo).2.1 _ ("extra", .int 1) ?_ (by decide),
    (drift_guard_schema isoDemo).2.2.1 _ [.obj [("surprise", .int 1)]] _ ("surprise", .int 1)
      rfl (List.Mem.head _) (List.Mem.head _) (by decide),
    (drift_guard_schema isoDemo).2.2.2.1 _ rfl,
    (drift_guard_schema isoDemo).2.2.2.2.1 _ rfl,
    (drift_guard_schema isoDemo).2.2.2.2.2.1 _ [.obj [("timestamp", .str demoTs)]] _
      rfl (List.Mem.head _) (Or.inl rfl),
    (drift_guard_schema isoDemo).2.2.2.2.2.2.1 _ rfl,
    (drift_guard_schema isoDemo).2.2.2.2.2.2.2 _
      [.obj [("id", .str "r1"), ("timestamp", .str "not-a-date"),
        ("type", .str "t"), ("data", .obj [])]] _ "not-a-date"
      rfl (List.Mem.head _) rfl (by decide)⟩
  exact List.mem_cons_of_mem _ (List.Mem.head _)



/-- Claim C7, counterexample — C7 claims a record whose `id` is the empty
string, or whose present `metadata` value is not a mapping, is rejected.
The code has no non-emptiness validator on `id` and accepts `null`
metadata: this concrete envelope containing a record with `id = ""` and a
record with `metadata = null` passes the whole drift-guard validation. -/
theorem drift_record_empty_id_cex :
    (validate_llm_output isoDemo (.ok demoEnvelopeCex)).isOk = true := by decide

/-- Claim C7, amended — Drift Guard validation requires `id` to be a
string but accepts the empty string (an otherwise-valid record with
`id = ""` and `metadata = null` validates), and when `metadata` is present
with a value other than `null` requires it to be a mapping: a record whose
present metadata is neither `null` nor a mapping is rejected. -/
theorem drift_record_id_and_metadata (isoOk : String → Bool) :
    (∀ ts ty d, isoOk (replaceZ ts) = true → pyStrip ty ≠ "" →
       (validateRecord isoOk (.obj [("id", .str ""), ("timestamp", .str ts),
          ("type", .str ty), ("data", .obj d), ("metadata", .null)])).isOk = true)
    ∧ (∀ rkvs m, jlookup rkvs "metadata" = some m →
        isNullJson m = false → isObjJson m = false →
        (validateRecord isoOk (.obj rkvs)).isOk = false) := by
  constructor
  · intro ts ty d hiso hty
    rw [validateRecord_isOk]
    simp only [recordAccepts, jlookup, allowedRecordKey]
    simp [hiso, hty]
  · intro rkvs m hm hnull hobj
    rw [validateRecord_isOk]
    cases m <;> simp_all [recordAccepts, isNullJson, isObjJson, hm]

theorem drift_record_id_and_metadata_witness :
    ((validateRecord isoDemo (.obj [("id", .str ""), ("timestamp", .str demoTs),
        ("type", .str "t"), ("data", .obj []), ("metadata", .null)])).isOk = true)
    ∧ ((validateRecord isoDemo (.obj [("id", .str "r1"), ("timestamp", .str demoTs),
        ("type", .str "t"), ("data", .obj []),
        ("metadata", .str "not-a-mapping")])).isOk = false) :=
  ⟨(drift_record_id_and_metadata isoDemo).1 demoTs "t" [] (by decide) (by decide),
   (drift_record_id_and_metadata isoDemo).2 _ (.str "not-a-mapping") rfl rfl rfl⟩



theorem process_json_file_parse (text : String) (parse : String → ParseResult)
    (j : Json) (hne : pyStrip text ≠ "") (hp : parse (pyStrip text) = .ok j) :
    process_json_file false (.ok text) parse = extractFromJson j := by
  simp [process_json_file, hne, hp]

theorem objRecords_records (kvs : List (String × Json)) (rs : List Json)
    (h : jlookup kvs "records" = some (.arr rs)) : objRecords kvs = rs := by
  simp [objRecords, h]

theorem objRecords_data (kvs : List (String × Json)) (ds : List Json)
    (hrec : isArrValue (jlookup kvs "records") = false)
    (h : jlookup kvs "data" = some (.arr ds)) : objRecords kvs = ds := by
  unfold objRecords
  rcases hrv : jlookup kvs "records" with _ | v
  · simp [h]
  · cases v
    all_goals try (simp [h]; done)
    rw [hrv] at hrec
    simp [isArrValue] at hrec

theorem objRecords_dataMatch (kvs : List (String × Json))
    (hd : isArrValue (jlookup kvs "data") = false) :
    (match jlookup kvs "data" with
     | some (.arr ds) => ds
     | _ => [Json.obj kvs]) = [Json.obj kvs] := by
  rcases hdv : jlookup kvs "data" with _ | w
  · simp [hdv]
  · cases w
    all_goals try (simp [hdv]; done)
    rw [hdv] at hd
    simp [isArrValue] at hd

theorem objRecords_fallback (kvs : List (String × Json))
    (hrec : isArrValue (jlookup kvs "records") = false)
    (hd : isArrValue (jlookup kvs "data") = false) :
    objRecords kvs = [.obj kvs] := by
  have hinner := objRecords_dataMatch kvs hd
  unfold objRecords
  rcases hrv : jlookup kvs "records" with _ | v
  · simp only [hrv]
    exact hinner
  · cases v
    all_goals try (simp only [hrv]; exact hinner)
    rw [hrv] at hrec
    simp [isArrValue] at hrec



/-- Claim C2, counterexample — C2 claims extract returns the value under
`records` whenever that value is a sequence.  On a mapping whose
`records` holds the empty sequence, `process_json_file` instead fails the
trailing `if not records` check with the no-records error, so it does not
return the empty sequence. -/
theorem extract_empty_records_value_cex :
    process_json_file false (.ok "payload")
        (fun _ => .ok (.obj [("records", .arr [])])) = .error .noRecords
    ∧ (Except.error ExtractError.noRecords
        ≠ (Except.ok ([] : List Json) : Except ExtractError (List Json))) :=
  ⟨rfl, fun h => Except.noConfusion h⟩

/-- Claim C2, amended — for every input whose bytes decode and parse to a
JSON mapping, extract returns the value under `records` when that value is
a non-empty sequence; otherwise the value under `data` when that value is
a non-empty sequence; otherwise a one-element sequence holding the whole
mapping (including when `records`/`data` is present with a non-sequence
value); when the key selected by this rule holds an empty sequence,
extract fails with the no-records error instead of returning it; and every
input parsing to a non-empty JSON array is returned verbatim. -/
theorem extract_shapes (text : String) (parse : String → ParseResult)
    (hne : pyStrip text ≠ "") :
    (∀ kvs, parse (pyStrip text) = .ok (.obj kvs) →
      ((∀ rs, jlookup kvs "records" = some (.arr rs) → rs ≠ [] →
          process_json_file false (.ok text) parse = .ok rs)
       ∧ (∀ rs, jlookup kvs "records" = some (.arr rs) → rs = [] →
          process_json_file false (.ok text) parse = .error .noRecords)
       ∧ (isArrValue (jlookup kvs "records") = false →
          ∀ ds, jlookup kvs "data" = some (.arr ds) → ds ≠ [] →
            process_json_file false (.ok text) parse = .ok ds)
       ∧ (isArrValue (jlookup kvs "records") = false →
          ∀ ds, jlookup kvs "data" = some (.arr ds) → ds = [] →
            process_json_file false (.ok text) parse = .error .noRecords)
       ∧ (isArrValue (jlookup kvs "records") = false →
          isArrValue (jlookup kvs "data") = false →
            process_json_file false (.ok text) parse = .ok [.obj kvs])))
    ∧ (∀ xs, parse (pyStrip text) = .ok (.arr xs) → xs ≠ [] →
        process_json_file false (.ok text) parse = .ok xs) := by
  constructor
  · intro kvs hp
    rw [process_json_file_parse text parse _ hne hp]
    refine ⟨?_, ?_, ?_, ?_, ?_⟩
    · intro rs hrec hrs
      rw [show extractFromJson (.obj kvs) =
          (if (objRecords kvs).isEmpty then .error .noRecords else .ok (objRecords kvs))
          from rfl]
      rw [objRecords_records kvs rs hrec]
      simp [hrs]
    · intro rs hrec hrs
      subst hrs
      rw [show extractFromJson (.obj kvs) =
          (if (objRecords kvs).isEmpty then .error .noRecords else .ok (objRecords kvs))
          from rfl]
      rw [objRecords_records kvs [] hrec]
      simp
    · intro hnr ds hdata hds
      rw [show extractFromJson (.obj kvs) =
          (if (objRecords kvs).isEmpty then .error .noRecords else .ok (objRecords kvs))
          from rfl]
      rw [objRecords_data kvs ds hnr hdata]
      simp [hds]
    · intro hnr ds hdata hds
      subst hds
      rw [show extractFromJson (.obj kvs) =
          (if (objRecords kvs).isEmpty then .error .noRecords else .ok (objRecords kvs))
          from rfl]
      rw [objRecords_data kvs [] hnr hdata]
      simp
    · intro hnr hnd
      rw [show extractFromJson (.obj kvs) =
          (if (objRecords kvs).isEmpty then .error .noRecords else .ok (objRecords kvs))
          from rfl]
      rw [objRecords_fallback kvs hnr hnd]
      simp
  · intro xs hp hxs
    rw [process_json_file_parse text parse _ hne hp]
    simp [extractFromJson, hxs, List.isEmpty_iff]



theorem extract_shapes_witness :
    process_json_file false (.ok "payload")
      (fun _ => .ok (.obj [("batch_id", .str "b1"), ("records", .str "oops")]))
      = .ok [.obj [("batch_id", .str "b1"), ("records", .str "oops")]]
    ∧ process_json_file false (.ok "listpayload")
      (fun _ => .ok (.arr [.int 1, .int 2])) = .ok [.int 1, .int 2] := by
  constructor
  · exact ((extract_shapes "payload" _ (by decide)).1 _ rfl).2.2.2.2 rfl rfl
  · exact (extract_shapes "listpayload" _ (by decide)).2 _ rfl (by simp)

/-- Claim C6 — extract fails with a distinct, identifiable error for each
failure cause: empty byte input and whitespace-only input fail with the
`EmptyPayload` spec kind, an empty JSON array fails with the `NoRecords`
spec kind, and a bare JSON scalar fails with the `UnsupportedShape` kind
naming the actual JSON type encountered; the four surfaced `ValueError`
messages are pairwise distinct for every key, so the causes are
distinguishable in the surfaced error. -/
theorem extract_failure_kinds :
    (∀ d p, process_json_file true d p = .error .emptyFile)
    ∧ (∀ p text, pyStrip text = "" →
        process_json_file false (.ok text) p = .error .whitespaceOnly)
    ∧ (∀ p text, pyStrip text ≠ "" → p (pyStrip text) = .ok (.arr []) →
        process_json_file false (.ok text) p = .error .emptyArray)
    ∧ (∀ p text j, pyStrip text ≠ "" → p (pyStrip text) = .ok j → isScalar j = true →
        process_json_file false (.ok text) p = .error (.unsupportedShape (typeName j)))
    ∧ (specKind .emptyFile = .EmptyPayload ∧ specKind .whitespaceOnly = .EmptyPayload
       ∧ specKind .emptyArray = .NoRecords
       ∧ ∀ ty, specKind (.unsupportedShape ty) = .UnsupportedShape)
    ∧ (∀ k ty,
        errorMessage k .emptyFile ≠ errorMessage k .whitespaceOnly
        ∧ errorMessage k .emptyFile ≠ errorMessage k .emptyArray
        ∧ errorMessage k .emptyFile ≠ errorMessage k (.unsupportedShape ty)
        ∧ errorMessage k .whitespaceOnly ≠ errorMessage k .emptyArray
        ∧ errorMessage k .whitespaceOnly ≠ errorMessage k (.unsupportedShape ty)
        ∧ errorMessage k .emptyArray ≠ errorMessage k (.unsupportedShape ty)) := by
  refine ⟨fun d p => rfl, ?_, ?_, ?_, ⟨rfl, rfl, rfl, fun ty => rfl⟩, ?_⟩
  · intro p text h
    simp [process_json_file, h]
  · intro p text hne hp
    rw [process_json_file_parse text p _ hne hp]
    rfl
  · intro p text j hne hp hs
    rw [process_json_file_parse text p _ hne hp]
    cases j
    all_goals try rfl
    all_goals simp [isScalar] at hs
  · intro k ty
    have l1 : ("Empty file: ").length = 12 := rfl
    have l2 : ("Error parsing ").length = 14 := rfl
    have l3 : (": File contains only whitespace: ").length = 33 := rfl
    have l4 : (": Empty array in ").length = 17 := rfl
    have l5 : (": Unexpected JSON structure in ").length = 31 := rfl
    have l6 : (": expected object or array, got ").length = 32 := rfl
    refine ⟨?_, ?_, ?_, ?_, ?_, ?_⟩ <;>
      (intro h
       have h2 := congrArg String.length h
       simp only [errorMessage, String.length_append, l1, l2, l3, l4, l5, l6] at h2
       omega)

theorem extract_failure_kinds_witness :
    (process_json_file false (.ok "   ") (fun _ => .err "na") = .error .whitespaceOnly)
    ∧ (process_json_file false (.ok "emptyarr") (fun _ => .ok (.arr []))
        = .error .emptyArray)
    ∧ (process_json_file false (.ok "scalar") (fun _ => .ok (.int 123))
        = .error (.unsupportedShape "int")) :=
  ⟨extract_failure_kinds.2.1 _ "   " (by decide),
   extract_failure_kinds.2.2.1 _ "emptyarr" (by decide) rfl,
   extract_failure_kinds.2.2.2.1 _ "scalar" (.int 123) (by decide) rfl rfl⟩



theorem upsertStart_no_match (b k : String) (sz : Nat) (hsh : String)
    (m : Option String) (now : Nat) (es : List LedgerEntry)
    (hnm : es.any (entryMatches b k) = false) :
    upsertStart b k sz hsh m now es = (none, es) := by
  induction es with
  | nil => rfl
  | cons e es ih =>
    rw [List.any_cons] at hnm
    rcases Bool.or_eq_false_iff.mp hnm with ⟨he, hes⟩
    simp [upsertStart, he, ih hes]

theorem upsertStart_decompose (b k : String) (sz : Nat) (hsh : String)
    (m : Option String) (now : Nat) (es : List LedgerEntry)
    (hm : es.any (entryMatches b k) = true) :
    ∃ pre e post, es = pre ++ e :: post ∧ pre.any (entryMatches b k) = false ∧
      entryMatches b k e = true ∧
      upsertStart b k sz hsh m now es =
        (some e.id, pre ++ startUpdate sz hsh m now e :: post) := by
  induction es with
  | nil => simp at hm
  | cons e es ih =>
    cases he : entryMatches b k e
    · rw [List.any_cons, he, Bool.false_or] at hm
      obtain ⟨pre, e', post, hsplit, hpre, he', heq⟩ := ih hm
      refine ⟨e :: pre, e', post, by rw [hsplit, List.cons_append], ?_, he', ?_⟩
      · simp [List.any_cons, he, hpre]
      · simp [upsertStart, he, heq]
    · exact ⟨[], e, es, rfl, rfl, he, by simp [upsertStart, he]⟩

theorem upsertStart_append_no_match (b k : String) (sz : Nat) (hsh : String)
    (m : Option String) (now : Nat) (pre l : List LedgerEntry)
    (hpre : pre.any (entryMatches b k) = false) :
    upsertStart b k sz hsh m now (pre ++ l) =
      ((upsertStart b k sz hsh m now l).1, pre ++ (upsertStart b k sz hsh m now l).2) := by
  induction pre with
  | nil => simp
  | cons e pre ih =>
    rw [List.any_cons] at hpre
    rcases Bool.or_eq_false_iff.mp hpre with ⟨he, hpre'⟩
    simp [upsertStart, he, ih hpre']

theorem upsertStart_cons_match (b k : String) (sz : Nat) (hsh : String)
    (m : Option String) (now : Nat) (e : LedgerEntry) (es : List LedgerEntry)
    (he : entryMatches b k e = true) :
    upsertStart b k sz hsh m now (e :: es) =
      (some e.id, startUpdate sz hsh m now e :: es) := by
  simp [upsertStart, he]

/- ----------------------------------------------------------------------
Claim theorems: Ingestion Ledger, Orchestrator and Poll Loop.
---------------------------------------------------------------------- -/

/-- Claim C10 — when `log_file_processing_start` upserts an
already-existing `(bucket, key)` entry, only `status`, `file_size`,
`file_hash`, `metadata` and `updated_at` change; the entry's identity,
`file_name`, `file_path`, `processed_at` and `error_message` are left
unchanged (so a re-ingested key that previously FAILED keeps its old error
message while back in status `processing`), and every other row is
untouched. -/
theorem ledger_upsert_frame (st : LedgerState) (b k fn : String) (sz : Nat)
    (hsh : String) (m : Option String) (now : Nat)
    (hex : st.entries.any (entryMatches b k) = true) :
    ∃ pre e post,
      st.entries = pre ++ e :: post ∧
      pre.any (entryMatches b k) = false ∧
      entryMatches b k e = true ∧
      ∃ g, log_file_processing_start st b k fn sz hsh m now =
          (e.id, ⟨pre ++ g :: post, st.nextId⟩) ∧
        g.id = e.id ∧ g.file_name = e.file_name ∧ g.file_path = e.file_path ∧
        g.s3_bucket = e.s3_bucket ∧ g.s3_key = e.s3_key ∧
        g.created_at = e.created_at ∧ g.processed_at = e.processed_at ∧
        g.error_message = e.error_message ∧
        g.status = "processing" ∧ g.file_size = sz ∧ g.file_hash = hsh ∧
        g.metadata = m ∧ g.updated_at = now := by
  obtain ⟨pre, e, post, hsplit, hpre, he, heq⟩ :=
    upsertStart_decompose b k sz hsh m now st.entries hex
  refine ⟨pre, e, post, hsplit, hpre, he, startUpdate sz hsh m now e, ?_,
    rfl, rfl, rfl, rfl, rfl, rfl, rfl, rfl, rfl, rfl, rfl, rfl, rfl⟩
  simp only [log_file_processing_start, heq]

theorem ledger_upsert_frame_witness :
    ∃ pre e post,
      (LedgerState.mk [demoFailedEntry] 8).entries = pre ++ e :: post ∧
      pre.any (entryMatches "b" "in/a.json") = false ∧
      entryMatches "b" "in/a.json" e = true ∧
      ∃ g, log_file_processing_start ⟨[demoFailedEntry], 8⟩ "b" "in/a.json"
            "a.json" 20 "h9" (some "meta") 99 =
          (e.id, ⟨pre ++ g :: post, 8⟩) ∧
        g.id = e.id ∧ g.file_name = e.file_name ∧ g.file_path = e.file_path ∧
        g.s3_bucket = e.s3_bucket ∧ g.s3_key = e.s3_key ∧
        g.created_at = e.created_at ∧ g.processed_at = e.processed_at ∧
        g.error_message = e.error_message ∧
        g.status = "processing" ∧ g.file_size = 20 ∧ g.file_hash = "h9" ∧
        g.metadata = some "meta" ∧ g.updated_at = 99 :=
  ledger_upsert_frame ⟨[demoFailedEntry], 8⟩ "b" "in/a.json" "a.json" 20 "h9"
    (some "meta") 99 (by decide)



theorem filter_cons_pos {α : Type} {p : α → Bool} {a : α} (l : List α)
    (h : p a = true) : (a :: l).filter p = a :: l.filter p := by
  simp [List.filter_cons, h]

theorem entryMatches_startUpdate (b k : String) (sz : Nat) (hsh : String)
    (m : Option String) (now : Nat) (e : LedgerEntry) :
    entryMatches b k (startUpdate sz hsh m now e) = entryMatches b k e := rfl

/-- Claim C4 — starting from a ledger satisfying the at-most-one-entry
invariant for `(bucket, key)`, opening processing twice for the same
`(bucket, key)` produces exactly one entry for that key, in status
`processing`, with size, hash and metadata overwritten by the second
call's values, and both calls return the same stable identity. -/
theorem ledger_upsert_single (st : LedgerState) (b k fn1 fn2 hsh1 hsh2 : String)
    (sz1 sz2 : Nat) (m1 m2 : Option String) (now1 now2 : Nat)
    (hw : matchCount b k st.entries ≤ 1) :
    (log_file_processing_start st b k fn1 sz1 hsh1 m1 now1).1 =
      (log_file_processing_start (log_file_processing_start st b k fn1 sz1 hsh1 m1 now1).2
        b k fn2 sz2 hsh2 m2 now2).1
    ∧ ∃ e,
      (log_file_processing_start (log_file_processing_start st b k fn1 sz1 hsh1 m1 now1).2
          b k fn2 sz2 hsh2 m2 now2).2.entries.filter (entryMatches b k) = [e]
      ∧ e.id = (log_file_processing_start st b k fn1 sz1 hsh1 m1 now1).1
      ∧ e.status = "processing" ∧ e.file_size = sz2 ∧ e.file_hash = hsh2
      ∧ e.metadata = m2 := by
  cases hex : st.entries.any (entryMatches b k)
  case false =>
    have heq1 := upsertStart_no_match b k sz1 hsh1 m1 now1 st.entries hex
    have h1 : log_file_processing_start st b k fn1 sz1 hsh1 m1 now1 =
        (st.nextId,
         ⟨st.entries ++ [freshEntry b k fn1 sz1 hsh1 m1 st.nextId now1],
          st.nextId + 1⟩) := by
      simp only [log_file_processing_start, heq1]
    have hfm : entryMatches b k (freshEntry b k fn1 sz1 hsh1 m1 st.nextId now1) = true := by
      simp [entryMatches, freshEntry]
    have heq2 : upsertStart b k sz2 hsh2 m2 now2
        (st.entries ++ [freshEntry b k fn1 sz1 hsh1 m1 st.nextId now1]) =
        (some (freshEntry b k fn1 sz1 hsh1 m1 st.nextId now1).id,
         st.entries ++
           [startUpdate sz2 hsh2 m2 now2 (freshEntry b k fn1 sz1 hsh1 m1 st.nextId now1)]) := by
      rw [upsertStart_append_no_match b k sz2 hsh2 m2 now2 st.entries _ hex,
          upsertStart_cons_match b k sz2 hsh2 m2 now2 _ [] hfm]
    have h2 : log_file_processing_start
        (log_file_processing_start st b k fn1 sz1 hsh1 m1 now1).2 b k fn2 sz2 hsh2 m2 now2 =
        ((freshEntry b k fn1 sz1 hsh1 m1 st.nextId now1).id,
         ⟨st.entries ++
            [startUpdate sz2 hsh2 m2 now2 (freshEntry b k fn1 sz1 hsh1 m1 st.nextId now1)],
          st.nextId + 1⟩) := by
      rw [h1]
      simp only [log_file_processing_start, heq2]
    rw [h2, h1]
    refine ⟨rfl,
      startUpdate sz2 hsh2 m2 now2 (freshEntry b k fn1 sz1 hsh1 m1 st.nextId now1),
      ?_, rfl, rfl, rfl, rfl, rfl⟩
    rw [List.filter_append, any_false_filter_nil hex]
    have hfm2 : entryMatches b k
        (startUpdate sz2 hsh2 m2 now2 (freshEntry b k fn1 sz1 hsh1 m1 st.nextId now1)) = true := by
      rw [entryMatches_startUpdate]
      exact hfm
    simp [List.filter_cons, hfm2]
  case true =>
    obtain ⟨pre, e, post, hsplit, hpre, he, heq1⟩ :=
      upsertStart_decompose b k sz1 hsh1 m1 now1 st.entries hex
    have h1 : log_file_processing_start st b k fn1 sz1 hsh1 m1 now1 =
        (e.id, ⟨pre ++ startUpdate sz1 hsh1 m1 now1 e :: post, st.nextId⟩) := by
      simp only [log_file_processing_start, heq1]
    have hpost : post.filter (entryMatches b k) = [] := by
      unfold matchCount at hw
      rw [hsplit, List.filter_append, any_false_filter_nil hpre,
          filter_cons_pos post he, List.nil_append, List.length_cons] at hw
      exact List.length_eq_zero.mp (by omega)
    have hu : entryMatches b k (startUpdate sz1 hsh1 m1 now1 e) = true := by
      rw [entryMatches_startUpdate]
      exact he
    have heq2 : upsertStart b k sz2 hsh2 m2 now2
        (pre ++ startUpdate sz1 hsh1 m1 now1 e :: post) =
        (some e.id,
         pre ++ startUpdate sz2 hsh2 m2 now2 (startUpdate sz1 hsh1 m1 now1 e) :: post) := by
      rw [upsertStart_append_no_match b k sz2 hsh2 m2 now2 pre _ hpre,
          upsertStart_cons_match b k sz2 hsh2 m2 now2 _ post hu]
      rfl
    have h2 : log_file_processing_start
        (log_file_processing_start st b k fn1 sz1 hsh1 m1 now1).2 b k fn2 sz2 hsh2 m2 now2 =
        (e.id,
         ⟨pre ++ startUpdate sz2 hsh2 m2 now2 (startUpdate sz1 hsh1 m1 now1 e) :: post,
          st.nextId⟩) := by
      rw [h1]
      simp only [log_file_processing_start, heq2]
    rw [h2, h1]
    refine ⟨rfl,
      startUpdate sz2 hsh2 m2 now2 (startUpdate sz1 hsh1 m1 now1 e),
      ?_, rfl, rfl, rfl, rfl, rfl⟩
    rw [List.filter_append, any_false_filter_nil hpre]
    have hu2 : entryMatches b k
        (startUpdate sz2 hsh2 m2 now2 (startUpdate sz1 hsh1 m1 now1 e)) = true := by
      rw [entryMatches_startUpdate, entryMatches_startUpdate]
      exact he
    simp [List.filter_cons, hu2, hpost]

theorem ledger_upsert_single_witness :
    (log_file_processing_start ⟨[demoFailedEntry], 8⟩ "b" "in/a.json" "a.json" 3 "h1" none 10).1 =
      (log_file_processing_start
        (log_file_processing_start ⟨[demoFailedEntry], 8⟩ "b" "in/a.json" "a.json" 3 "h1" none 10).2
        "b" "in/a.json" "a.json" 5 "h2" (some "m") 11).1
    ∧ ∃ e,
      (log_file_processing_start
          (log_file_processing_start ⟨[demoFailedEntry], 8⟩ "b" "in/a.json" "a.json" 3 "h1" none 10).2
          "b" "in/a.json" "a.json" 5 "h2" (some "m") 11).2.entries.filter
        (entryMatches "b" "in/a.json") = [e]
      ∧ e.id = (log_file_processing_start ⟨[demoFailedEntry], 8⟩ "b" "in/a.json" "a.json" 3 "h1" none 10).1
      ∧ e.status = "processing" ∧ e.file_size = 5 ∧ e.file_hash = "h2"
      ∧ e.metadata = some "m" :=
  ledger_upsert_single ⟨[demoFailedEntry], 8⟩ "b" "in/a.json" "a.json" "a.json"
    "h1" "h2" 3 5 none (some "m") 10 11 (by decide)



/-- Claim C8 — `update_file_processing_status` sets `processed_at` only
when the new status is `COMPLETED`, leaving a previously set
`processed_at` unchanged for every other status; it always overwrites
`error_message` with the supplied value (clearing it when none is
supplied); and every field other than `status`, `processed_at` and
`error_message` — and every row with a different id — is unchanged. -/
theorem close_processing_frame (st : LedgerState) (log_id : Nat) (status : String)
    (em : Option String) (now : Nat) :
    (update_file_processing_status st log_id status em now).entries.length
      = st.entries.length
    ∧ ∀ (i : Nat) (e g : LedgerEntry), st.entries[i]? = some e →
        (update_file_processing_status st log_id status em now).entries[i]? = some g →
        ((e.id ≠ log_id → g = e)
         ∧ (e.id = log_id →
            g.status = status ∧ g.error_message = em
            ∧ (status = "COMPLETED" → g.processed_at = some now)
            ∧ (status ≠ "COMPLETED" → g.processed_at = e.processed_at)
            ∧ g.id = e.id ∧ g.file_name = e.file_name ∧ g.file_path = e.file_path
            ∧ g.s3_bucket = e.s3_bucket ∧ g.s3_key = e.s3_key
            ∧ g.file_size = e.file_size ∧ g.file_hash = e.file_hash
            ∧ g.metadata = e.metadata ∧ g.created_at = e.created_at
            ∧ g.updated_at = e.updated_at)) := by
  constructor
  · simp [update_file_processing_status]
  · intro i e g he hg
    simp only [update_file_processing_status, List.getElem?_map, he,
      Option.map_some'] at hg
    injection hg with hg
    constructor
    · intro hne
      rw [← hg]
      simp [hne]
    · intro hid
      rw [← hg]
      simp [hid]
      constructor <;> intro hc <;> simp [hc]

theorem close_processing_frame_witness :
    ((update_file_processing_status ⟨[demoFailedEntry], 8⟩ 7 "COMPLETED" none 50).entries.length
      = 1)
    ∧ ((demoFailedEntry.id ≠ 7 →
          (update_file_processing_status ⟨[demoFailedEntry], 8⟩ 7 "COMPLETED" none 50).entries[0]?
            = some demoFailedEntry → True)) := by
  refine ⟨(close_processing_frame ⟨[demoFailedEntry], 8⟩ 7 "COMPLETED" none 50).1, ?_⟩
  intro h
  cases h rfl



theorem runNewFiles_mem (process : String → Bool) (ks : List String) :
    ∀ (known : List String) (k : String),
      k ∈ runNewFiles process ks known ↔ k ∈ known ∨ (k ∈ ks ∧ process k = true) := by
  induction ks with
  | nil => intro known k; simp [runNewFiles]
  | cons q ks ih =>
    intro known k
    simp only [runNewFiles]
    rw [ih]
    cases hp : process q
    · rw [if_neg (by simp [hp])]
      constructor
      · rintro (h | h)
        · exact Or.inl h
        · exact Or.inr ⟨List.mem_cons_of_mem _ h.1, h.2⟩
      · rintro (h | ⟨hm, hpk⟩)
        · exact Or.inl h
        · rcases List.mem_cons.mp hm with rfl | hm'
          · rw [hpk] at hp
            cases hp
          · exact Or.inr ⟨hm', hpk⟩
    · rw [if_pos rfl]
      simp only [List.mem_append, List.mem_cons, List.not_mem_nil, or_false]
      constructor
      · rintro ((h | rfl) | ⟨hm, hpk⟩)
        · exact Or.inl h
        · exact Or.inr ⟨Or.inl rfl, hp⟩
        · exact Or.inr ⟨Or.inr hm, hpk⟩
      · rintro (h | ⟨(rfl | hm), hpk⟩)
        · exact Or.inl (Or.inl h)
        · exact Or.inl (Or.inr rfl)
        · exact Or.inr ⟨hm, hpk⟩

/-- Claim C9 — the known-keys set seeded at startup
(`get_processed_files`) holds exactly the ledger keys whose status is
`processing` or `COMPLETED` (FAILED keys excluded); a poll cycle processes
exactly the listed keys that end in `.json` and are absent from the
known-keys set; and after the cycle a key is known exactly when it was
known before or was processed with success — so a key whose processing
failed is not added and stays eligible for retry. -/
theorem poll_loop_dedup (entries : List LedgerEntry) (process : String → Bool)
    (listing known : List String) :
    (∀ k, k ∈ get_processed_files entries ↔
        ∃ e, e ∈ entries ∧ e.s3_key = k ∧
          (e.status = "COMPLETED" ∨ e.status = "processing"))
    ∧ (∀ k, k ∈ (watchCycle process listing known).1 ↔
        (k ∈ listing ∧ pyEndsWith k ".json" = true ∧ known.contains k = false))
    ∧ (∀ k, k ∈ (watchCycle process listing known).2 ↔
        (k ∈ known ∨ (k ∈ (watchCycle process listing known).1 ∧ process k = true))) := by
  refine ⟨?_, ?_, ?_⟩
  · intro k
    simp only [get_processed_files, List.mem_map, List.mem_filter]
    constructor
    · rintro ⟨e, ⟨hm, hs⟩, hk⟩
      refine ⟨e, hm, hk, ?_⟩
      rcases Bool.or_eq_true_iff.mp hs with h | h
      · exact Or.inl (by simpa using h)
      · exact Or.inr (by simpa using h)
    · rintro ⟨e, hm, hk, hs⟩
      refine ⟨e, ⟨hm, ?_⟩, hk⟩
      rcases hs with h | h
      · exact Bool.or_eq_true_iff.mpr (Or.inl (by simpa using h))
      · exact Bool.or_eq_true_iff.mpr (Or.inr (by simpa using h))
  · intro k
    simp only [watchCycle, newJsonFiles, List.mem_filter, Bool.and_eq_true,
      Bool.not_eq_true']
  · intro k
    exact runNewFiles_mem process (newJsonFiles listing known) known k



theorem log_start_mem (st : LedgerState) (b k fn : String) (sz : Nat) (hsh : String)
    (m : Option String) (now : Nat) :
    ∃ e, e ∈ (log_file_processing_start st b k fn sz hsh m now).2.entries ∧
      e.id = (log_file_processing_start st b k fn sz hsh m now).1 ∧
      entryMatches b k e = true := by
  cases hex : st.entries.any (entryMatches b k)
  · have heq := upsertStart_no_match b k sz hsh m now st.entries hex
    refine ⟨freshEntry b k fn sz hsh m st.nextId now, ?_, ?_, ?_⟩
    · simp only [log_file_processing_start, heq]
      exact List.mem_append.mpr (Or.inr (List.Mem.head _))
    · simp only [log_file_processing_start, heq]
      rfl
    · simp [entryMatches, freshEntry]
  · obtain ⟨pre, e, post, hsplit, hpre, he, heq⟩ :=
      upsertStart_decompose b k sz hsh m now st.entries hex
    refine ⟨startUpdate sz hsh m now e, ?_, ?_, ?_⟩
    · simp only [log_file_processing_start, heq]
      exact List.mem_append.mpr (Or.inr (List.Mem.head _))
    · simp only [log_file_processing_start, heq]
      rfl
    · rw [entryMatches_startUpdate]
      exact he

theorem update_status_mem (st : LedgerState) (logId : Nat) (stat : String)
    (em : Option String) (now : Nat) (b k : String) (e : LedgerEntry)
    (hm : e ∈ st.entries) (hid : e.id = logId) (hmatch : entryMatches b k e = true) :
    ∃ g, g ∈ (update_file_processing_status st logId stat em now).entries ∧
      entryMatches b k g = true ∧ g.status = stat ∧ g.error_message = em := by
  refine ⟨{ e with status := stat, processed_at := if stat = "COMPLETED" then some now else e.processed_at, error_message := em }, ?_, hmatch, rfl, rfl⟩
  simp only [update_file_processing_status]
  apply List.mem_map.mpr
  exact ⟨e, hm, by simp [hid]⟩

theorem attemptFailClose_spec (env : OrchestratorEnv) (st : LedgerState) (logId : Nat)
    (msg : String) (now : Nat) (b k : String) (e : LedgerEntry)
    (hm : e ∈ st.entries) (hid : e.id = logId) (hmatch : entryMatches b k e = true)
    (hcf : env.failCloseFails = false) :
    ∃ g, g ∈ (attemptFailClose env st logId msg now).entries ∧
      entryMatches b k g = true ∧ g.status = "FAILED" ∧
      g.error_message = some msg := by
  unfold attemptFailClose
  rw [hcf]
  simp only [Bool.false_eq_true, if_false]
  exact update_status_mem st logId "FAILED" (some msg) now b k e hm hid hmatch



/-- Claim C5 — `process_s3_file` returns a boolean success indicator (the
model is a total function, and the success iff characterizes it); when the
download fails before a ledger entry exists it reports failure with no
ledger write; and for every failure after the ledger entry is opened
(extract, persist, or the COMPLETED update) the function returns failure
and, when the best-effort close itself does not fail, the opened entry is
closed to `FAILED` carrying the original error's message; when the close
does fail the function still returns failure (the `.1 = false` conjuncts
hold regardless of `failCloseFails`). -/
theorem process_s3_file_spec (env : OrchestratorEnv) (b k : String)
    (st : LedgerState) (now : Nat) :
    (∀ d, env.download = .error d → process_s3_file env b k st now = (false, st))
    ∧ ((process_s3_file env b k st now).1 = true ↔
        (∃ f, env.download = .ok f ∧ env.connect = .ok () ∧ env.openFailure = none ∧
          (process_json_file f.contentEmpty f.decoded env.parse).isOk = true ∧
          env.persistFailure = none ∧ env.completeFailure = none))
    ∧ (∀ f e, env.download = .ok f → env.connect = .ok () → env.openFailure = none →
        process_json_file f.contentEmpty f.decoded env.parse = .error e →
        ((process_s3_file env b k st now).1 = false
         ∧ (env.failCloseFails = false →
            ∃ g, g ∈ (process_s3_file env b k st now).2.entries ∧
              entryMatches b k g = true ∧ g.status = "FAILED" ∧
              g.error_message = some (errorMessage k e))))
    ∧ (∀ f rs m, env.download = .ok f → env.connect = .ok () → env.openFailure = none →
        process_json_file f.contentEmpty f.decoded env.parse = .ok rs →
        env.persistFailure = some m →
        ((process_s3_file env b k st now).1 = false
         ∧ (env.failCloseFails = false →
            ∃ g, g ∈ (process_s3_file env b k st now).2.entries ∧
              entryMatches b k g = true ∧ g.status = "FAILED" ∧
              g.error_message = some m)))
    ∧ (∀ f rs m, env.download = .ok f → env.connect = .ok () → env.openFailure = none →
        process_json_file f.contentEmpty f.decoded env.parse = .ok rs →
        env.persistFailure = none → env.completeFailure = some m →
        ((process_s3_file env b k st now).1 = false
         ∧ (env.failCloseFails = false →
            ∃ g, g ∈ (process_s3_file env b k st now).2.entries ∧
              entryMatches b k g = true ∧ g.status = "FAILED" ∧
              g.error_message = some m))) := by
  refine ⟨?_, ?_, ?_, ?_, ?_⟩
  · intro d h
    simp [process_s3_file, h]
  · cases hdl : env.download with
    | error d => simp [process_s3_file, hdl]
    | ok f =>
      cases hcn : env.connect with
      | error c => simp [process_s3_file, hdl, hcn]
      | ok u =>
        cases u
        cases hop : env.openFailure with
        | some m => simp [process_s3_file, hdl, hcn, hop]
        | none =>
          cases hpj : process_json_file f.contentEmpty f.decoded env.parse with
          | error e => simp [process_s3_file, hdl, hcn, hop, hpj, except_isOk_error]
          | ok rs =>
            cases hpf : env.persistFailure with
            | some m => simp [process_s3_file, hdl, hcn, hop, hpj, hpf, except_isOk_ok]
            | none =>
              cases hcc : env.completeFailure with
              | some m =>
                simp [process_s3_file, hdl, hcn, hop, hpj, hpf, hcc, except_isOk_ok]
              | none =>
                simp [process_s3_file, hdl, hcn, hop, hpj, hpf, hcc, except_isOk_ok]
  · intro f e hdl hcn hop hpj
    have hred : process_s3_file env b k st now =
        (false, attemptFailClose env
          (log_file_processing_start st b k f.file_name f.file_size f.file_hash
            f.metadata now).2
          (log_file_processing_start st b k f.file_name f.file_size f.file_hash
            f.metadata now).1
          (errorMessage k e) now) := by
      simp [process_s3_file, hdl, hcn, hop, hpj]
    rw [hred]
    refine ⟨rfl, ?_⟩
    intro hcf
    obtain ⟨e0, hm, hid, hmatch⟩ :=
      log_start_mem st b k f.file_name f.file_size f.file_hash f.metadata now
    exact attemptFailClose_spec env _ _ _ now b k e0 hm hid hmatch hcf
  · intro f rs m hdl hcn hop hpj hpf
    have hred : process_s3_file env b k st now =
        (false, attemptFailClose env
          (log_file_processing_start st b k f.file_name f.file_size f.file_hash
            f.metadata now).2
          (log_file_processing_start st b k f.file_name f.file_size f.file_hash
            f.metadata now).1
          m now) := by
      simp [process_s3_file, hdl, hcn, hop, hpj, hpf]
    rw [hred]
    refine ⟨rfl, ?_⟩
    intro hcf
    obtain ⟨e0, hm, hid, hmatch⟩ :=
      log_start_mem st b k f.file_name f.file_size f.file_hash f.metadata now
    exact attemptFailClose_spec env _ _ _ now b k e0 hm hid hmatch hcf
  · intro f rs m hdl hcn hop hpj hpf hcc
    have hred : process_s3_file env b k st now =
        (false, attemptFailClose env
          (log_file_processing_start st b k f.file_name f.file_size f.file_hash
            f.metadata now).2
          (log_file_processing_start st b k f.file_name f.file_size f.file_hash
            f.metadata now).1
          m now) := by
      simp [process_s3_file, hdl, hcn, hop, hpj, hpf, hcc]
    rw [hred]
    refine ⟨rfl, ?_⟩
    intro hcf
    obtain ⟨e0, hm, hid, hmatch⟩ :=
      log_start_mem st b k f.file_name f.file_size f.file_hash f.metadata now
    exact attemptFailClose_spec env _ _ _ now b k e0 hm hid hmatch hcf



theorem process_s3_file_spec_witness :
    (process_s3_file ⟨.error "S3 denied", .ok (), fun _ => .err "x", none, none, none, false⟩
      "b" "k.json" ⟨[], 1⟩ 5 = (false, ⟨[], 1⟩))
    ∧ ∃ g, g ∈ (process_s3_file
          ⟨.ok ⟨true, .ok "", 0, "h", "a.json", none⟩, .ok (),
           fun _ => .err "x", none, none, none, false⟩ "b" "k.json" ⟨[], 1⟩ 5).2.entries ∧
        entryMatches "b" "k.json" g = true ∧ g.status = "FAILED" ∧
        g.error_message = some (errorMessage "k.json" ExtractError.emptyFile) := by
  constructor
  · exact (process_s3_file_spec _ "b" "k.json" ⟨[], 1⟩ 5).1 "S3 denied" rfl
  · exact ((process_s3_file_spec _ "b" "k.json" ⟨[], 1⟩ 5).2.2.1
      ⟨true, .ok "", 0, "h", "a.json", none⟩ .emptyFile rfl rfl rfl rfl).2 rfl

end Clearinghouse
